import Mathlib

/-! Shops: data access layer and shop detail view

A shallow embedding of `src/services/googleSheets.js` (`fetchCSV`, `getShops`,
`getShopProducts`, the `MOCK_SHOPS` / `MOCK_PRODUCTS` tables) and of the logic
of `src/pages/ShopDetails.jsx` (`handleSort`, `loadShopData`, the three render
branches).

Modelling conventions.

* A named field of a CSV record is `undefined`, `null` or a string (`Value`).
  A record (`Row`) is the association list of its named fields together with
  the array of surplus cells that Papa.parse stores under `__parsed_extra`
  when a line has more cells than the header has columns; reading a missing
  field gives `undefined`.
* A JavaScript number is `JSNum`: `NaN`, the two infinities, or a finite value
  kept as an exact rational.  The rounding of a decimal literal to a double is
  a field of the environment (`Env.toDouble`), so every statement that
  quantifies over the environment holds for the real rounding as well.
* `String.prototype.localeCompare` is a field of the environment
  (`Env.localeCompare`).  ECMAScript requires it to be a consistent
  comparator; that requirement is the predicate `ConsistentCompare`.
* `Array.prototype.sort` is stable (ES2019).  For a consistent comparator the
  stable arrangement is unique, so it is modelled by a stable insertion sort
  (`jsSort`) driven by the sign of the comparator's result.
* An `async` function resolves or rejects: its result is an `Except`.
  Module-level mutable data (`MOCK_PRODUCTS`) is threaded explicitly.
  Timers and console output are dropped.
-/

namespace Shops

/-! ## Values and records -/

/-- A value of a named field of a parsed record, as the program reads it
through `row.name`, `row.slug`, `row.price` or `row.product_sheet_id`:
`undefined`, `null` or text.  The one value of a record that is of another
kind, the array Papa.parse keeps under `__parsed_extra`, is the field
`parsedExtra` of `Row`. -/
inductive Value where
  | undefined
  | null
  | str (s : String)
  deriving DecidableEq, Repr

/-- A parsed record, as a JavaScript object: the named fields, in the order of
the header columns, and, when the line has more cells than the header has
columns, the array of the surplus cells that Papa.parse (with `header: true`)
stores under the key `__parsed_extra`. -/
structure Row where
  fields : List (String × Value)
  parsedExtra : Option (List String)
  deriving DecidableEq, Repr

/-- An object literal with the given named fields. -/
def Row.ofFields (fields : List (String × Value)) : Row :=
  { fields := fields, parsedExtra := none }

/-- Property access `row.key` for a column name `key`: `undefined` when the
field is missing. -/
def Row.get (r : Row) (key : String) : Value :=
  match r.fields.lookup key with
  | some v => v
  | none => Value.undefined

/-- A value that `Object.values(row)` enumerates: the value of a named field,
or the array of surplus cells. -/
inductive FieldValue where
  | cell (v : Value)
  | extra (items : List String)
  deriving DecidableEq, Repr

/-- The array `Object.values(row)`: the named fields in order, then the array
under `__parsed_extra` if the record has one. -/
def Row.values (r : Row) : List FieldValue :=
  r.fields.map (fun field => FieldValue.cell field.2) ++
    (match r.parsedExtra with
     | some items => [FieldValue.extra items]
     | none => [])

/-- JavaScript truthiness of a field value: only a non-empty string is truthy. -/
def Value.truthy : Value → Bool
  | Value.str s => s != ""
  | _ => false

/-- The conversion `String(value)`. -/
def Value.toStr : Value → String
  | Value.undefined => "undefined"
  | Value.null => "null"
  | Value.str s => s

/-- The conversion `String(value)` of a value of a record: an array is the
text of its items joined by commas. -/
def FieldValue.toStr : FieldValue → String
  | FieldValue.cell v => v.toStr
  | FieldValue.extra items => String.intercalate "," items

/-- The expression `(value || '')` for a name field. -/
def Value.orEmpty (v : Value) : String :=
  if v.truthy then v.toStr else ""

/-- ECMAScript `WhiteSpace` and `LineTerminator` code points, the characters
removed by `trim` and skipped by `parseFloat`. -/
def isWhiteSpace (c : Char) : Bool :=
  let n := c.toNat
  n == 0x09 || n == 0x0A || n == 0x0B || n == 0x0C || n == 0x0D || n == 0x20 ||
  n == 0xA0 || n == 0x1680 || (0x2000 ≤ n && n ≤ 0x200A) || n == 0x2028 ||
  n == 0x2029 || n == 0x202F || n == 0x205F || n == 0x3000 || n == 0xFEFF

/-- The characters of `s.trimStart()`. -/
def trimStartChars (cs : List Char) : List Char :=
  cs.dropWhile isWhiteSpace

/-- The characters of `s.trim()`. -/
def trimChars (cs : List Char) : List Char :=
  ((trimStartChars cs).reverse.dropWhile isWhiteSpace).reverse

/-- `String.prototype.trim`. -/
def jsTrim (s : String) : String :=
  String.mk (trimChars s.toList)

/-- `String.prototype.startsWith`. -/
def jsStartsWith (s pre : String) : Bool :=
  pre.toList.isPrefixOf s.toList

/-! ## Numbers -/

/-- A JavaScript number: `NaN`, an infinity, or a finite value. -/
inductive JSNum where
  | nan
  | negInf
  | fin (q : ℚ)
  | posInf
  deriving DecidableEq

/-- Truthiness of a number: `NaN` and zero are falsy. -/
def JSNum.truthy : JSNum → Bool
  | JSNum.nan => false
  | JSNum.fin q => decide (q ≠ 0)
  | _ => true

/-- The expression `x || 0`. -/
def JSNum.orZero (x : JSNum) : JSNum :=
  if x.truthy then x else JSNum.fin 0

/-- Strict inequality `a !== b` of two numbers (`NaN` differs from everything). -/
def JSNum.strictNe : JSNum → JSNum → Bool
  | JSNum.nan, _ => true
  | _, JSNum.nan => true
  | a, b => decide (a ≠ b)

/-- Subtraction `a - b`.  On finite values the sign of the exact difference is
the sign of the rounded one. -/
def JSNum.sub : JSNum → JSNum → JSNum
  | JSNum.nan, _ => JSNum.nan
  | _, JSNum.nan => JSNum.nan
  | JSNum.posInf, JSNum.posInf => JSNum.nan
  | JSNum.negInf, JSNum.negInf => JSNum.nan
  | JSNum.posInf, _ => JSNum.posInf
  | JSNum.negInf, _ => JSNum.negInf
  | JSNum.fin _, JSNum.posInf => JSNum.negInf
  | JSNum.fin _, JSNum.negInf => JSNum.posInf
  | JSNum.fin a, JSNum.fin b => JSNum.fin (a - b)

/-- The test `v > 0` that a sort applies to a comparator result. -/
def JSNum.isPos : JSNum → Bool
  | JSNum.posInf => true
  | JSNum.fin q => decide (0 < q)
  | _ => false

/-- The order `a < b` of JavaScript numbers (false as soon as one is `NaN`). -/
def JSNum.lt : JSNum → JSNum → Prop
  | JSNum.nan, _ => False
  | _, JSNum.nan => False
  | JSNum.negInf, JSNum.negInf => False
  | JSNum.negInf, _ => True
  | JSNum.fin _, JSNum.negInf => False
  | JSNum.fin a, JSNum.fin b => a < b
  | JSNum.fin _, JSNum.posInf => True
  | JSNum.posInf, _ => False

/-- A number returned by `localeCompare`. -/
def JSNum.ofInt (n : Int) : JSNum := JSNum.fin n

/-! ## `parseFloat` -/

/-- The value of a run of decimal digits. -/
def digitsToNat (ds : List Char) : Nat :=
  ds.foldl (fun acc c => 10 * acc + (c.toNat - 48)) 0

/-- The optional `ExponentPart` at the head of `cs`: its value, or `0` when
`cs` does not start with one (an `e` not followed by digits is not consumed). -/
def parseExponent (cs : List Char) : Int :=
  match cs with
  | [] => 0
  | c :: rest =>
    if c == 'e' || c == 'E' then
      match rest with
      | [] => 0
      | s :: rest2 =>
        if s == '-' then - (digitsToNat (rest2.takeWhile Char.isDigit) : Int)
        else if s == '+' then (digitsToNat (rest2.takeWhile Char.isDigit) : Int)
        else (digitsToNat (rest.takeWhile Char.isDigit) : Int)
    else 0

/-- The mathematical value of a decimal: `mantissa * 10 ^ exponent`. -/
def decimalValue (mantissa : Nat) (exponent : Int) : ℚ :=
  (mantissa : ℚ) * (10 : ℚ) ^ exponent

/-- The longest prefix of `cs` that is a `StrUnsignedDecimalLiteral`, as
`none` (no such prefix), `some none` (`Infinity`) or `some (some (m, e))` (a
decimal of mathematical value `m * 10 ^ e`). -/
def parseUnsigned (cs : List Char) : Option (Option (Nat × Int)) :=
  if "Infinity".toList.isPrefixOf cs then some none
  else
    let intPart := cs.takeWhile Char.isDigit
    let rest := cs.dropWhile Char.isDigit
    match rest with
    | '.' :: rest2 =>
      let fracPart := rest2.takeWhile Char.isDigit
      if intPart.isEmpty && fracPart.isEmpty then none
      else
        some (some (digitsToNat (intPart ++ fracPart),
          parseExponent (rest2.dropWhile Char.isDigit) - fracPart.length))
    | _ =>
      if intPart.isEmpty then none
      else some (some (digitsToNat intPart, parseExponent rest))

/-- The longest `StrDecimalLiteral` prefix of `cs`: `none` when there is no
such prefix, otherwise a sign (`true` for minus) with the unsigned reading. -/
def parseSigned (cs : List Char) : Option (Bool × Option (Nat × Int)) :=
  match cs with
  | '-' :: rest => (parseUnsigned rest).map (fun v => (true, v))
  | '+' :: rest => (parseUnsigned rest).map (fun v => (false, v))
  | _ => (parseUnsigned cs).map (fun v => (false, v))

/-- The global `parseFloat` applied to a string, with `toDouble` the rounding
of a mathematical value to a number. -/
def parseFloatStr (toDouble : ℚ → JSNum) (s : String) : JSNum :=
  match parseSigned (trimStartChars s.toList) with
  | none => JSNum.nan
  | some (true, none) => JSNum.negInf
  | some (false, none) => JSNum.posInf
  | some (true, some (m, e)) => toDouble (- decimalValue m e)
  | some (false, some (m, e)) => toDouble (decimalValue m e)

/-! ## The environment -/

/-- What the program takes from its surroundings: the number rounding and the
collation of the JavaScript engine, the outcome of `Papa.parse(url, ...)` with
`download` and `header` set (the parsed records, or a failure), and the build
setting `VITE_MASTER_SHEET_URL`. -/
structure Env where
  toDouble : ℚ → JSNum
  localeCompare : String → String → Int
  download : String → Except String (List Row)
  masterSheetUrl : Value

/-- The requirement ECMAScript puts on `localeCompare`: a consistent
comparator (reflexive, sign-antisymmetric, transitive). -/
def ConsistentCompare (lc : String → String → Int) : Prop :=
  (∀ a, lc a a = 0) ∧ (∀ a b, lc a b < 0 ↔ 0 < lc b a) ∧
    (∀ a b c, lc a b ≤ 0 → lc b c ≤ 0 → lc a c ≤ 0)

/-- The global `parseFloat` applied to a field value. -/
def parseFloat (E : Env) (v : Value) : JSNum :=
  parseFloatStr E.toDouble v.toStr

/-- The expression `parseFloat(p.price) || 0`: the numeric price of a record. -/
def numericPrice (E : Env) (p : Row) : JSNum :=
  (parseFloat E (p.get "price")).orZero

/-- The expression `(p.name || '')`: the name a record is compared by. -/
def sortName (p : Row) : String :=
  (p.get "name").orEmpty

/-- The expression `(a.name || '').localeCompare(b.name || '')`. -/
def compareNames (E : Env) (a b : Row) : JSNum :=
  JSNum.ofInt (E.localeCompare (sortName a) (sortName b))

/-! ## `Array.prototype.sort` -/

/-- One insertion step of the stable sort: `a` goes in front of the first
element it does not compare greater than. -/
def sortInsert {α : Type} (cmp : α → α → JSNum) (a : α) : List α → List α
  | [] => [a]
  | b :: l => if (cmp a b).isPos then b :: sortInsert cmp a l else a :: b :: l

/-- The array that `Array.prototype.sort(cmp)` leaves: the stable arrangement
of `l` by the sign of `cmp`. -/
def jsSort {α : Type} (cmp : α → α → JSNum) : List α → List α
  | [] => []
  | a :: l => sortInsert cmp a (jsSort cmp l)

/-! ## `services/googleSheets.js` -/

/-- The callback of `some` in `fetchCSV`: the value is not `undefined`, not
`null`, and `String(value).trim()` is not the empty string. -/
def fieldNonEmpty (v : FieldValue) : Bool :=
  v != FieldValue.cell Value.undefined && v != FieldValue.cell Value.null &&
    jsTrim v.toStr != ""

/-- The callback of `filter` in `fetchCSV`: some value of the record is
non-empty. -/
def rowNonEmpty (row : Row) : Bool :=
  row.values.any fieldNonEmpty

/-- The function `fetchCSV`: the downloaded records without the empty ones,
or the failure of the download. -/
def fetchCSV (E : Env) (url : String) : Except String (List Row) :=
  match E.download url with
  | Except.ok data => Except.ok (data.filter rowNonEmpty)
  | Except.error e => Except.error e

/-- The table `MOCK_SHOPS`. -/
def MOCK_SHOPS : List Row :=
  [ Row.ofFields
      [("id", Value.str "1"), ("name", Value.str "Tech Store"), ("slug", Value.str "tech-store"),
       ("logo_url", Value.str "https://placehold.co/100x100/3b82f6/white?text=Tech"),
       ("contact_info", Value.str "contact@tech.com"), ("phone_number", Value.str "9944513415"),
       ("theme_color", Value.str "#3b82f6"), ("product_sheet_id", Value.str "mock-sheet-1")],
    Row.ofFields
      [("id", Value.str "2"), ("name", Value.str "Home Decor"), ("slug", Value.str "home-decor"),
       ("logo_url", Value.str "https://placehold.co/100x100/ef4444/white?text=Home"),
       ("contact_info", Value.str "hello@homedecor.com"), ("phone_number", Value.str "9788545102"),
       ("theme_color", Value.str "#ef4444"), ("product_sheet_id", Value.str "mock-sheet-2")] ]

/-- A record of `MOCK_PRODUCTS`. -/
def mockProduct (id name price category imageUrl stock : String) : Row :=
  Row.ofFields
    [("id", Value.str id), ("name", Value.str name), ("price", Value.str price),
     ("category", Value.str category), ("image_url", Value.str imageUrl),
     ("stock", Value.str stock)]

/-- The array `MOCK_PRODUCTS['mock-sheet-1']` as the module defines it. -/
def mockSheet1 : List Row :=
  [ mockProduct "101" "Wireless Mouse" "25.00" "Electronics"
      "https://placehold.co/300x300?text=Mouse" "50",
    mockProduct "102" "Mechanical Keyboard" "120.00" "Electronics"
      "https://placehold.co/300x300?text=Keyboard" "20",
    mockProduct "103" "Monitor 27\"" "300.00" "Electronics"
      "https://placehold.co/300x300?text=Monitor" "10" ]

/-- The array `MOCK_PRODUCTS['mock-sheet-2']` as the module defines it. -/
def mockSheet2 : List Row :=
  [ mockProduct "201" "Modern Lamp" "45.00" "Lighting"
      "https://placehold.co/300x300?text=Lamp" "15",
    mockProduct "202" "Vase" "20.00" "Decor"
      "https://placehold.co/300x300?text=Vase" "30" ]

/-- The state of a keyed table of arrays, such as `MOCK_PRODUCTS`. -/
abbrev ProductTable := List (String × List Row)

/-- The table `MOCK_PRODUCTS` as the module defines it. -/
def MOCK_PRODUCTS : ProductTable :=
  [("mock-sheet-1", mockSheet1), ("mock-sheet-2", mockSheet2)]

/-- The array stored under `key`, if any: `table[key]`. -/
def ProductTable.find (t : ProductTable) (key : String) : Option (List Row) :=
  t.lookup key

/-- The table after the array stored under `key` has been rearranged in place
into `arr`. -/
def ProductTable.store (t : ProductTable) (key : String) (arr : List Row) : ProductTable :=
  t.map (fun e => (e.1, if e.1 = key then arr else e.2))

/-- The callback of `filter` in `getShops`: `shop.name && shop.slug`. -/
def shopValid (shop : Row) : Bool :=
  (shop.get "name").truthy && (shop.get "slug").truthy

/-- The function `getShops`. -/
def getShops (E : Env) : Except String (List Row) :=
  if E.masterSheetUrl.truthy then
    match fetchCSV E E.masterSheetUrl.toStr with
    | Except.ok shops => Except.ok (shops.filter shopValid)
    | Except.error _ => Except.ok []
  else
    Except.ok MOCK_SHOPS

/-- The callback of `filter` in `getShopProducts`: `product.name && product.price`. -/
def productValid (product : Row) : Bool :=
  (product.get "name").truthy && (product.get "price").truthy

/-- The comparator of both `sort` calls in `getShopProducts`. -/
def comparePriceThenName (E : Env) (a b : Row) : JSNum :=
  if (numericPrice E a).strictNe (numericPrice E b) then
    (numericPrice E a).sub (numericPrice E b)
  else
    compareNames E a b

/-- The address `getShopProducts` downloads for a source reference that is
not a mock identifier. -/
def productSheetUrl (sheetId : String) : String :=
  if jsStartsWith sheetId "http" then sheetId
  else "https://docs.google.com/spreadsheets/d/" ++ sheetId ++ "/pub?output=csv"

/-- The function `getShopProducts`, run with the mock table in state `mock`:
its result and the state of the mock table afterwards.  On a mock identifier
the array stored under it is sorted in place and returned. -/
def getShopProducts (E : Env) (sheetId : Value) (mock : ProductTable) :
    Except String (List Row) × ProductTable :=
  if !sheetId.truthy then (Except.ok [], mock)
  else if jsStartsWith sheetId.toStr "mock-sheet-" then
    match mock.find sheetId.toStr with
    | some mockProducts =>
      (Except.ok (jsSort (comparePriceThenName E) mockProducts),
        mock.store sheetId.toStr (jsSort (comparePriceThenName E) mockProducts))
    | none => (Except.ok (jsSort (comparePriceThenName E) []), mock)
  else
    match fetchCSV E (productSheetUrl sheetId.toStr) with
    | Except.ok products =>
      (Except.ok (jsSort (comparePriceThenName E) (products.filter productValid)), mock)
    | Except.error _ => (Except.ok [], mock)

/-- The state of `MOCK_PRODUCTS` after the calls `history` of `getShopProducts`
since the module was loaded, oldest first, each with the environment it ran
in and the source reference it was given. -/
def mockAfter (history : List (Env × Value)) : ProductTable :=
  history.foldl (fun mock call => (getShopProducts call.1 call.2 mock).2) MOCK_PRODUCTS

/-! ## `pages/ShopDetails.jsx` -/

/-- The React state of the component `ShopDetails`. -/
structure ViewState where
  shop : Option Row
  products : List Row
  sortedProducts : List Row
  sortType : String
  loading : Bool
  error : Option String
  cartCount : Int

/-- The state of a freshly mounted component (the `useState` initial values). -/
def initialState : ViewState :=
  { shop := none, products := [], sortedProducts := [], sortType := "price-low-high",
    loading := true, error := none, cartCount := 0 }

/-- The comparator `handleSort` passes to `sort`, for the sort type `type`. -/
def sortComparator (E : Env) (type : String) (a b : Row) : JSNum :=
  if type = "price-low-high" then
    if (numericPrice E a).strictNe (numericPrice E b) then
      (numericPrice E a).sub (numericPrice E b)
    else
      compareNames E a b
  else if type = "price-high-low" then
    if (numericPrice E a).strictNe (numericPrice E b) then
      (numericPrice E b).sub (numericPrice E a)
    else
      compareNames E a b
  else if type = "alphabetical-a-z" then
    compareNames E a b
  else if type = "alphabetical-z-a" then
    compareNames E b a
  else
    JSNum.fin 0

/-- The function `handleSort`: `productsToSort` is `none` for `null`, in which
case the held `products` are sorted; a copy of the list is sorted and stored
as `sortedProducts`. -/
def handleSort (E : Env) (type : String) (productsToSort : Option (List Row))
    (st : ViewState) : ViewState :=
  { st with
    sortType := type
    sortedProducts := jsSort (sortComparator E type) (productsToSort.getD st.products) }

/-- The function `handleAddToCart`. -/
def handleAddToCart (quantity : Int) (st : ViewState) : ViewState :=
  { st with cartCount := st.cartCount + quantity }

/-- A call the view makes into the data access layer. -/
inductive ServiceCall where
  | getShops
  | getShopProducts (sheetId : Value)
  deriving DecidableEq

/-- What lies outside the component: the state of `MOCK_PRODUCTS` and the
calls made so far into the data access layer. -/
structure World where
  mock : ProductTable
  calls : List ServiceCall

/-- The world when the module has just been loaded. -/
def initialWorld : World :=
  { mock := MOCK_PRODUCTS, calls := [] }

/-- The function `loadShopData` of the effect, run to completion for the route
parameter `slug` from the state `st`: the `try` body with its early return,
the `catch` branch for a rejected call, and the `finally` block. -/
def loadShopData (E : Env) (slug : Value) (st : ViewState) (w : World) : ViewState × World :=
  let st1 := { st with loading := true }
  let w1 : World := { w with calls := w.calls ++ [ServiceCall.getShops] }
  match getShops E with
  | Except.error _ =>
    ({ st1 with error := some "Failed to load shop data", loading := false }, w1)
  | Except.ok shops =>
    match shops.find? (fun s => s.get "slug" == slug) with
    | none => ({ st1 with error := some "Shop not found", loading := false }, w1)
    | some currentShop =>
      let st2 := { st1 with shop := some currentShop }
      let r := getShopProducts E (currentShop.get "product_sheet_id") w1.mock
      let w2 : World :=
        { mock := r.2
          calls := w1.calls ++ [ServiceCall.getShopProducts (currentShop.get "product_sheet_id")] }
      match r.1 with
      | Except.error _ =>
        ({ st2 with error := some "Failed to load shop data", loading := false }, w2)
      | Except.ok shopProducts =>
        ({ handleSort E "price-low-high" (some shopProducts)
              { st2 with products := shopProducts } with loading := false }, w2)

/-- What the component shows. -/
inductive Screen where
  | loading
  | error (message : String)
  | ready (shop : Row) (products : List Row)
  deriving DecidableEq

/-- Truthiness of the `error` state: `null` and the empty string are falsy. -/
def errorTruthy : Option String → Bool
  | some msg => msg != ""
  | none => false

/-- The three render branches of `ShopDetails`. -/
def render (st : ViewState) : Screen :=
  if st.loading then Screen.loading
  else
    match st.shop with
    | none => Screen.error (if errorTruthy st.error then st.error.getD "" else "Shop not found")
    | some shop =>
      if errorTruthy st.error then Screen.error (st.error.getD "")
      else Screen.ready shop st.sortedProducts

/-! ## Vocabulary of the statements -/

/-- The order `a <= b` of numeric prices. -/
def JSNum.le (a b : JSNum) : Prop :=
  a.lt b ∨ a = b

/-- The value is a non-empty string. -/
def Value.NonEmptyText (v : Value) : Prop :=
  ∃ s : String, v = Value.str s ∧ s ≠ ""

/-- A field is blank: undefined, null, or text in which every character is
white space (the empty text included). -/
def fieldBlank : Value → Bool
  | Value.str s => s.toList.all isWhiteSpace
  | _ => true

/-- A record is blank: every named field of it is blank and every surplus
cell of it is white space only (a record without fields included). -/
def rowBlank (row : Row) : Bool :=
  row.fields.all (fun field => fieldBlank field.2) &&
    (match row.parsedExtra with
     | some items => items.all (fun cell => cell.toList.all isWhiteSpace)
     | none => true)

/-- The order of the mode `price-low-high` between an earlier record `a` and a
later record `b`: the price rises, or it is the same and the name of `a` does
not collate after the name of `b`. -/
def PriceAscending (E : Env) (a b : Row) : Prop :=
  (numericPrice E a).lt (numericPrice E b) ∨
    (numericPrice E a = numericPrice E b ∧ E.localeCompare (sortName a) (sortName b) ≤ 0)

/-- The order of the mode `price-high-low` between an earlier record `a` and a
later record `b`: the price falls, or it is the same and the name of `a` does
not collate after the name of `b`. -/
def PriceDescending (E : Env) (a b : Row) : Prop :=
  (numericPrice E b).lt (numericPrice E a) ∨
    (numericPrice E a = numericPrice E b ∧ E.localeCompare (sortName a) (sortName b) ≤ 0)

/-- The record `a` may stand before the record `b` in an array sorted by `cmp`:
the comparator does not put `a` after `b`. -/
def NotAfter {α : Type} (cmp : α → α → JSNum) (a b : α) : Prop :=
  (cmp a b).isPos = false

/-! ## A reference environment -/

/-- Lexicographic comparison of two character sequences by code point. -/
def compareChars : List Char → List Char → Int
  | [], [] => 0
  | [], _ :: _ => -1
  | _ :: _, [] => 1
  | a :: as, b :: bs =>
    if a.toNat < b.toNat then -1
    else if b.toNat < a.toNat then 1
    else compareChars as bs

/-- Collation by code points. -/
def codePointCompare (a b : String) : Int :=
  compareChars a.toList b.toList

/-- An environment with exact numbers, code point collation, no network and
no configured master sheet. -/
def offlineEnv : Env :=
  { toDouble := JSNum.fin
    localeCompare := codePointCompare
    download := fun _ => Except.error "offline"
    masterSheetUrl := Value.undefined }

/-- A record with just a name and a price. -/
def namedPriced (name price : String) : Row :=
  Row.ofFields [("name", Value.str name), ("price", Value.str price)]

/-- A record with a name and a price that is text but no number. -/
def widgetRow : Row :=
  namedPriced "Widget" "abc"

/-- The reference environment with a network on which every download yields
the records `data`. -/
def tableEnv (data : List Row) : Env :=
  { offlineEnv with download := fun _ => Except.ok data }

/-- An environment in which every download yields the one record `widgetRow`. -/
def widgetEnv : Env :=
  tableEnv [widgetRow]

/-- The record Papa.parse builds from the line `,,,` under the header
`name,price`: two empty named cells and two empty surplus cells. -/
def surplusRow : Row :=
  { fields := [("name", Value.str ""), ("price", Value.str "")]
    parsedExtra := some ["", ""] }

/-- A parsed table without surplus cells: blank records around one record
that has content. -/
def sampleTable : List Row :=
  [ Row.ofFields [("name", Value.str " \t"), ("price", Value.str "")],
    widgetRow,
    Row.ofFields [],
    Row.ofFields [("name", Value.null), ("price", Value.undefined)] ]

/-! ## Numbers: the order behind the comparators -/

theorem jsnum_orZero_ne_nan (x : JSNum) : x.orZero ≠ JSNum.nan := by
  cases x with
  | fin q =>
    by_cases hq : q = 0 <;> simp [JSNum.orZero, JSNum.truthy, hq]
  | nan => simp [JSNum.orZero, JSNum.truthy]
  | negInf => simp [JSNum.orZero, JSNum.truthy]
  | posInf => simp [JSNum.orZero, JSNum.truthy]

theorem jsnum_strictNe_iff {a b : JSNum} (ha : a ≠ JSNum.nan) (hb : b ≠ JSNum.nan) :
    a.strictNe b = true ↔ a ≠ b := by
  cases a <;> cases b <;> simp_all [JSNum.strictNe]

theorem jsnum_isPos_sub_iff {a b : JSNum} (ha : a ≠ JSNum.nan) (hb : b ≠ JSNum.nan) :
    (a.sub b).isPos = true ↔ b.lt a := by
  cases a <;> cases b <;> simp_all [JSNum.sub, JSNum.isPos, JSNum.lt]

theorem jsnum_lt_irrefl (a : JSNum) : ¬ a.lt a := by
  cases a <;> simp [JSNum.lt]

theorem jsnum_lt_trans {a b c : JSNum} (hab : a.lt b) (hbc : b.lt c) : a.lt c := by
  cases a <;> cases b <;> cases c <;> simp_all [JSNum.lt]
  exact lt_trans hab hbc

theorem jsnum_lt_asymm {a b : JSNum} (hab : a.lt b) : ¬ b.lt a :=
  fun hba => jsnum_lt_irrefl a (jsnum_lt_trans hab hba)

theorem jsnum_lt_trichotomy {a b : JSNum} (ha : a ≠ JSNum.nan) (hb : b ≠ JSNum.nan) :
    a.lt b ∨ a = b ∨ b.lt a := by
  cases a <;> cases b <;> simp_all [JSNum.lt]
  exact lt_trichotomy _ _

theorem jsnum_isPos_ofInt (n : Int) : (JSNum.ofInt n).isPos = false ↔ n ≤ 0 := by
  simp [JSNum.ofInt, JSNum.isPos]

theorem numericPrice_ne_nan (E : Env) (p : Row) : numericPrice E p ≠ JSNum.nan :=
  jsnum_orZero_ne_nan _

/-! ## The stable sort -/

theorem sortInsert_perm {α : Type} (cmp : α → α → JSNum) (a : α) (l : List α) :
    (sortInsert cmp a l).Perm (a :: l) := by
  induction l with
  | nil => simp [sortInsert]
  | cons b l ih =>
    unfold sortInsert
    split
    · exact (List.Perm.cons b ih).trans (List.Perm.swap a b l)
    · exact List.Perm.refl _

theorem jsSort_perm {α : Type} (cmp : α → α → JSNum) (l : List α) :
    (jsSort cmp l).Perm l := by
  induction l with
  | nil => simp [jsSort]
  | cons a l ih =>
    exact (sortInsert_perm cmp a (jsSort cmp l)).trans (List.Perm.cons a ih)

theorem sortInsert_pairwise {α : Type} (cmp : α → α → JSNum)
    (htotal : ∀ a b, NotAfter cmp a b ∨ NotAfter cmp b a)
    (htrans : ∀ a b c, NotAfter cmp a b → NotAfter cmp b c → NotAfter cmp a c)
    (a : α) (l : List α) (hl : l.Pairwise (NotAfter cmp)) :
    (sortInsert cmp a l).Pairwise (NotAfter cmp) := by
  induction l with
  | nil => simp [sortInsert]
  | cons b l ih =>
    have hb := List.pairwise_cons.mp hl
    unfold sortInsert
    split
    · rename_i hpos
      have hba : NotAfter cmp b a := by
        rcases htotal a b with h | h
        · rw [NotAfter, hpos] at h; cases h
        · exact h
      refine List.pairwise_cons.mpr ⟨?_, ih hb.2⟩
      intro c hc
      rcases (List.Perm.mem_iff (sortInsert_perm cmp a l)).mp hc with hc | hc
      · simpa using hba
      · rename_i hmem
        exact hb.1 c hmem
    · rename_i hpos
      have hab : NotAfter cmp a b := by simpa [NotAfter] using hpos
      refine List.pairwise_cons.mpr ⟨?_, hl⟩
      intro c hc
      rcases List.mem_cons.mp hc with hc | hc
      · rw [hc]; exact hab
      · exact htrans a b c hab (hb.1 c hc)

theorem jsSort_pairwise {α : Type} (cmp : α → α → JSNum)
    (htotal : ∀ a b, NotAfter cmp a b ∨ NotAfter cmp b a)
    (htrans : ∀ a b c, NotAfter cmp a b → NotAfter cmp b c → NotAfter cmp a c)
    (l : List α) : (jsSort cmp l).Pairwise (NotAfter cmp) := by
  induction l with
  | nil => simp [jsSort]
  | cons a l ih => exact sortInsert_pairwise cmp htotal htrans a _ ih

theorem jsSort_eq_self {α : Type} (cmp : α → α → JSNum) (l : List α)
    (hl : l.Pairwise (NotAfter cmp)) : jsSort cmp l = l := by
  induction l with
  | nil => simp [jsSort]
  | cons a l ih =>
    have ha := List.pairwise_cons.mp hl
    rw [jsSort, ih ha.2]
    cases l with
    | nil => simp [sortInsert]
    | cons b l =>
      have hab : (cmp a b).isPos = false := ha.1 b (List.mem_cons_self b l)
      simp [sortInsert, hab]

theorem jsSort_idempotent {α : Type} (cmp : α → α → JSNum)
    (htotal : ∀ a b, NotAfter cmp a b ∨ NotAfter cmp b a)
    (htrans : ∀ a b c, NotAfter cmp a b → NotAfter cmp b c → NotAfter cmp a c)
    (l : List α) : jsSort cmp (jsSort cmp l) = jsSort cmp l :=
  jsSort_eq_self cmp _ (jsSort_pairwise cmp htotal htrans l)

/-! ## The comparators of the program -/

theorem consistent_total {lc : String → String → Int} (h : ConsistentCompare lc)
    (a b : String) : lc a b ≤ 0 ∨ lc b a ≤ 0 := by
  by_cases hab : lc a b ≤ 0
  · exact Or.inl hab
  · exact Or.inr (le_of_lt ((h.2.1 b a).mpr (not_le.mp hab)))

theorem comparePriceThenName_eq (E : Env) :
    comparePriceThenName E = sortComparator E "price-low-high" := by
  funext a b
  simp [comparePriceThenName, sortComparator]

theorem notAfter_priceLowHigh (E : Env) (a b : Row) :
    NotAfter (sortComparator E "price-low-high") a b ↔ PriceAscending E a b := by
  have ha := numericPrice_ne_nan E a
  have hb := numericPrice_ne_nan E b
  unfold NotAfter PriceAscending
  by_cases hne : numericPrice E a = numericPrice E b
  · have hs : (numericPrice E a).strictNe (numericPrice E b) = false := by
      rw [← Bool.not_eq_true, jsnum_strictNe_iff ha hb]; simpa using hne
    simp only [sortComparator, if_true, hs, Bool.false_eq_true, if_false, compareNames,
      jsnum_isPos_ofInt]
    constructor
    · intro h; exact Or.inr ⟨hne, h⟩
    · rintro (h | h)
      · rw [hne] at h; exact absurd h (jsnum_lt_irrefl _)
      · exact h.2
  · have hs : (numericPrice E a).strictNe (numericPrice E b) = true :=
      (jsnum_strictNe_iff ha hb).mpr hne
    simp only [sortComparator, if_true, hs, ← Bool.not_eq_true, jsnum_isPos_sub_iff ha hb]
    constructor
    · intro h
      rcases jsnum_lt_trichotomy ha hb with h1 | h1 | h1
      · exact Or.inl h1
      · exact absurd h1 hne
      · exact absurd h1 h
    · rintro (h | h)
      · exact jsnum_lt_asymm h
      · exact absurd h.1 hne

theorem notAfter_priceHighLow (E : Env) (a b : Row) :
    NotAfter (sortComparator E "price-high-low") a b ↔ PriceDescending E a b := by
  have ha := numericPrice_ne_nan E a
  have hb := numericPrice_ne_nan E b
  have hmode : ¬ ("price-high-low" = "price-low-high") := by decide
  unfold NotAfter PriceDescending
  by_cases hne : numericPrice E a = numericPrice E b
  · have hs : (numericPrice E a).strictNe (numericPrice E b) = false := by
      rw [← Bool.not_eq_true, jsnum_strictNe_iff ha hb]; simpa using hne
    simp only [sortComparator, hmode, if_true, hs, Bool.false_eq_true, if_false, compareNames,
      jsnum_isPos_ofInt]
    constructor
    · intro h; exact Or.inr ⟨hne, h⟩
    · rintro (h | h)
      · rw [hne] at h; exact absurd h (jsnum_lt_irrefl _)
      · exact h.2
  · have hs : (numericPrice E a).strictNe (numericPrice E b) = true :=
      (jsnum_strictNe_iff ha hb).mpr hne
    simp only [sortComparator, hmode, if_true, if_false, hs, ← Bool.not_eq_true,
      jsnum_isPos_sub_iff hb ha]
    constructor
    · intro h
      rcases jsnum_lt_trichotomy ha hb with h1 | h1 | h1
      · exact absurd h1 h
      · exact absurd h1 hne
      · exact Or.inl h1
    · rintro (h | h)
      · exact jsnum_lt_asymm h
      · exact absurd h.1 hne

theorem notAfter_alphabeticalAZ (E : Env) (a b : Row) :
    NotAfter (sortComparator E "alphabetical-a-z") a b ↔
      E.localeCompare (sortName a) (sortName b) ≤ 0 := by
  have h1 : ¬ ("alphabetical-a-z" = "price-low-high") := by decide
  have h2 : ¬ ("alphabetical-a-z" = "price-high-low") := by decide
  simp only [NotAfter, sortComparator, h1, h2, if_true, if_false, compareNames,
    jsnum_isPos_ofInt]

theorem notAfter_alphabeticalZA (E : Env) (a b : Row) :
    NotAfter (sortComparator E "alphabetical-z-a") a b ↔
      E.localeCompare (sortName b) (sortName a) ≤ 0 := by
  have h1 : ¬ ("alphabetical-z-a" = "price-low-high") := by decide
  have h2 : ¬ ("alphabetical-z-a" = "price-high-low") := by decide
  have h3 : ¬ ("alphabetical-z-a" = "alphabetical-a-z") := by decide
  simp only [NotAfter, sortComparator, h1, h2, h3, if_true, if_false, compareNames,
    jsnum_isPos_ofInt]

theorem notAfter_otherType (E : Env) (type : String) (h1 : type ≠ "price-low-high")
    (h2 : type ≠ "price-high-low") (h3 : type ≠ "alphabetical-a-z")
    (h4 : type ≠ "alphabetical-z-a") (a b : Row) :
    NotAfter (sortComparator E type) a b := by
  simp [NotAfter, sortComparator, h1, h2, h3, h4, JSNum.isPos]

theorem priceAscending_total (E : Env) (h : ConsistentCompare E.localeCompare) (a b : Row) :
    PriceAscending E a b ∨ PriceAscending E b a := by
  rcases jsnum_lt_trichotomy (numericPrice_ne_nan E a) (numericPrice_ne_nan E b) with h1 | h1 | h1
  · exact Or.inl (Or.inl h1)
  · rcases consistent_total h (sortName a) (sortName b) with h2 | h2
    · exact Or.inl (Or.inr ⟨h1, h2⟩)
    · exact Or.inr (Or.inr ⟨h1.symm, h2⟩)
  · exact Or.inr (Or.inl h1)

theorem priceAscending_trans (E : Env) (h : ConsistentCompare E.localeCompare) (a b c : Row)
    (hab : PriceAscending E a b) (hbc : PriceAscending E b c) : PriceAscending E a c := by
  rcases hab with h1 | ⟨h1, n1⟩ <;> rcases hbc with h2 | ⟨h2, n2⟩
  · exact Or.inl (jsnum_lt_trans h1 h2)
  · exact Or.inl (h2 ▸ h1)
  · exact Or.inl (h1 ▸ h2)
  · exact Or.inr ⟨h1.trans h2, h.2.2 _ _ _ n1 n2⟩

theorem priceDescending_total (E : Env) (h : ConsistentCompare E.localeCompare) (a b : Row) :
    PriceDescending E a b ∨ PriceDescending E b a := by
  rcases jsnum_lt_trichotomy (numericPrice_ne_nan E a) (numericPrice_ne_nan E b) with h1 | h1 | h1
  · exact Or.inr (Or.inl h1)
  · rcases consistent_total h (sortName a) (sortName b) with h2 | h2
    · exact Or.inl (Or.inr ⟨h1, h2⟩)
    · exact Or.inr (Or.inr ⟨h1.symm, h2⟩)
  · exact Or.inl (Or.inl h1)

theorem priceDescending_trans (E : Env) (h : ConsistentCompare E.localeCompare) (a b c : Row)
    (hab : PriceDescending E a b) (hbc : PriceDescending E b c) : PriceDescending E a c := by
  rcases hab with h1 | ⟨h1, n1⟩ <;> rcases hbc with h2 | ⟨h2, n2⟩
  · exact Or.inl (jsnum_lt_trans h2 h1)
  · exact Or.inl (h2 ▸ h1)
  · exact Or.inl (h1 ▸ h2)
  · exact Or.inr ⟨h1.trans h2, h.2.2 _ _ _ n1 n2⟩

theorem sortComparator_total (E : Env) (h : ConsistentCompare E.localeCompare) (type : String)
    (a b : Row) :
    NotAfter (sortComparator E type) a b ∨ NotAfter (sortComparator E type) b a := by
  by_cases h1 : type = "price-low-high"
  · subst h1
    simpa only [notAfter_priceLowHigh] using priceAscending_total E h a b
  by_cases h2 : type = "price-high-low"
  · subst h2
    simpa only [notAfter_priceHighLow] using priceDescending_total E h a b
  by_cases h3 : type = "alphabetical-a-z"
  · subst h3
    simpa only [notAfter_alphabeticalAZ] using consistent_total h (sortName a) (sortName b)
  by_cases h4 : type = "alphabetical-z-a"
  · subst h4
    simpa only [notAfter_alphabeticalZA] using consistent_total h (sortName b) (sortName a)
  exact Or.inl (notAfter_otherType E type h1 h2 h3 h4 a b)

theorem sortComparator_trans (E : Env) (h : ConsistentCompare E.localeCompare) (type : String)
    (a b c : Row) (hab : NotAfter (sortComparator E type) a b)
    (hbc : NotAfter (sortComparator E type) b c) : NotAfter (sortComparator E type) a c := by
  by_cases h1 : type = "price-low-high"
  · subst h1
    rw [notAfter_priceLowHigh] at hab hbc ⊢
    exact priceAscending_trans E h a b c hab hbc
  by_cases h2 : type = "price-high-low"
  · subst h2
    rw [notAfter_priceHighLow] at hab hbc ⊢
    exact priceDescending_trans E h a b c hab hbc
  by_cases h3 : type = "alphabetical-a-z"
  · subst h3
    rw [notAfter_alphabeticalAZ] at hab hbc ⊢
    exact h.2.2 _ _ _ hab hbc
  by_cases h4 : type = "alphabetical-z-a"
  · subst h4
    rw [notAfter_alphabeticalZA] at hab hbc ⊢
    exact h.2.2 _ _ _ hbc hab
  exact notAfter_otherType E type h1 h2 h3 h4 a c

theorem handleSort_sortedProducts (E : Env) (type : String) (l : List Row) (st : ViewState) :
    (handleSort E type (some l) st).sortedProducts = jsSort (sortComparator E type) l := rfl

/-! ## The reference environment, and `parseFloat` on the literals used below -/

theorem compareChars_self (a : List Char) : compareChars a a = 0 := by
  induction a with
  | nil => rfl
  | cons x xs ih => simp [compareChars, ih]

theorem compareChars_neg_iff (a b : List Char) :
    compareChars a b < 0 ↔ 0 < compareChars b a := by
  induction a generalizing b with
  | nil => cases b <;> simp [compareChars]
  | cons x xs ih =>
    cases b with
    | nil => simp [compareChars]
    | cons y ys =>
      simp only [compareChars]
      by_cases h1 : x.toNat < y.toNat
      · have h2 : ¬ y.toNat < x.toNat := by omega
        simp [h1, h2]
      · by_cases h2 : y.toNat < x.toNat
        · simp [h1, h2]
        · simp [h1, h2, ih]

theorem compareChars_trans (a b c : List Char) (hab : compareChars a b ≤ 0)
    (hbc : compareChars b c ≤ 0) : compareChars a c ≤ 0 := by
  induction a generalizing b c with
  | nil => cases c <;> simp [compareChars]
  | cons x xs ih =>
    cases b with
    | nil => simp [compareChars] at hab
    | cons y ys =>
      cases c with
      | nil => simp [compareChars] at hbc
      | cons z zs =>
        simp only [compareChars] at hab hbc ⊢
        by_cases h1 : x.toNat < y.toNat
        · by_cases h2 : y.toNat < z.toNat
          · have h3 : x.toNat < z.toNat := by omega
            simp [h3]
          · by_cases h2b : z.toNat < y.toNat
            · simp [h2, h2b] at hbc
            · have h3 : x.toNat < z.toNat := by omega
              simp [h3]
        · by_cases h1b : y.toNat < x.toNat
          · simp [h1, h1b] at hab
          · by_cases h2 : y.toNat < z.toNat
            · have h3 : x.toNat < z.toNat := by omega
              simp [h3]
            · by_cases h2b : z.toNat < y.toNat
              · simp [h2, h2b] at hbc
              · have h3 : ¬ x.toNat < z.toNat := by omega
                have h4 : ¬ z.toNat < x.toNat := by omega
                simp only [h1, h1b, if_false] at hab
                simp only [h2, h2b, if_false] at hbc
                simp only [h3, h4, if_false]
                exact ih ys zs hab hbc

theorem codePointCompare_consistent : ConsistentCompare codePointCompare :=
  ⟨fun a => compareChars_self a.toList,
    fun a b => compareChars_neg_iff a.toList b.toList,
    fun a b c => compareChars_trans a.toList b.toList c.toList⟩

theorem parseFloatStr_decimal (f : ℚ → JSNum) (s : String) (m : Nat) (e : Int)
    (h : parseSigned (trimStartChars s.toList) = some (false, some (m, e))) :
    parseFloatStr f s = f (decimalValue m e) := by
  simp only [parseFloatStr, h]

theorem orZero_fin_pos (q : ℚ) (hq : 0 < q) : (JSNum.fin q).orZero = JSNum.fin q := by
  simp [JSNum.orZero, JSNum.truthy, ne_of_gt hq]

theorem numericPrice_of_decimal (E : Env) (p : Row) (s : String) (m : Nat) (e : Int) (q : ℚ)
    (hp : p.get "price" = Value.str s)
    (hs : parseSigned (trimStartChars s.toList) = some (false, some (m, e)))
    (hq : decimalValue m e = q) (hpos : 0 < q) (hE : E.toDouble q = JSNum.fin q) :
    numericPrice E p = JSNum.fin q := by
  rw [numericPrice, parseFloat, hp, Value.toStr, parseFloatStr_decimal _ s m e hs, hq, hE,
    orZero_fin_pos q hpos]

/-! ## Sorting in the view -/

/-- C2: for every product list and for each of the two price modes, the list
that handleSort produces is a permutation of the input ordered by numeric
price, ascending for price-low-high and descending for price-high-low, with
records of equal numeric price in ascending name order in both modes; and
the list B(10), A(10), C(5) sorted price-low-high is C, A, B. -/
theorem handleSort_price_modes (E : Env) (hE : ConsistentCompare E.localeCompare)
    (l : List Row) (st : ViewState) :
    ((handleSort E "price-low-high" (some l) st).sortedProducts.Perm l ∧
      (handleSort E "price-low-high" (some l) st).sortedProducts.Pairwise (PriceAscending E)) ∧
    ((handleSort E "price-high-low" (some l) st).sortedProducts.Perm l ∧
      (handleSort E "price-high-low" (some l) st).sortedProducts.Pairwise (PriceDescending E)) ∧
    (E.toDouble 10 = JSNum.fin 10 → E.toDouble 5 = JSNum.fin 5 → E.localeCompare "A" "B" < 0 →
      (handleSort E "price-low-high"
        (some [namedPriced "B" "10", namedPriced "A" "10", namedPriced "C" "5"])
        st).sortedProducts =
        [namedPriced "C" "5", namedPriced "A" "10", namedPriced "B" "10"]) := by
  refine ⟨⟨jsSort_perm _ l, ?_⟩, ⟨jsSort_perm _ l, ?_⟩, ?_⟩
  · rw [handleSort_sortedProducts]
    exact (jsSort_pairwise _ (sortComparator_total E hE _) (sortComparator_trans E hE _) l).imp
      (fun {a b} hab => (notAfter_priceLowHigh E a b).mp hab)
  · rw [handleSort_sortedProducts]
    exact (jsSort_pairwise _ (sortComparator_total E hE _) (sortComparator_trans E hE _) l).imp
      (fun {a b} hab => (notAfter_priceHighLow E a b).mp hab)
  · intro h10 h5 hAB
    have pB : numericPrice E (namedPriced "B" "10") = JSNum.fin 10 :=
      numericPrice_of_decimal E _ "10" 10 0 10 rfl (by decide) (by norm_num [decimalValue])
        (by norm_num) h10
    have pA : numericPrice E (namedPriced "A" "10") = JSNum.fin 10 :=
      numericPrice_of_decimal E _ "10" 10 0 10 rfl (by decide) (by norm_num [decimalValue])
        (by norm_num) h10
    have pC : numericPrice E (namedPriced "C" "5") = JSNum.fin 5 :=
      numericPrice_of_decimal E _ "5" 5 0 5 rfl (by decide) (by norm_num [decimalValue])
        (by norm_num) h5
    have nA : sortName (namedPriced "A" "10") = "A" := by decide
    have nB : sortName (namedPriced "B" "10") = "B" := by decide
    have hBA : 0 < E.localeCompare "B" "A" := (hE.2.1 "A" "B").mp hAB
    have cAC : (sortComparator E "price-low-high" (namedPriced "A" "10")
        (namedPriced "C" "5")).isPos = true := by
      simp [sortComparator, pA, pC, JSNum.strictNe, JSNum.sub, JSNum.isPos]; norm_num
    have cBC : (sortComparator E "price-low-high" (namedPriced "B" "10")
        (namedPriced "C" "5")).isPos = true := by
      simp [sortComparator, pB, pC, JSNum.strictNe, JSNum.sub, JSNum.isPos]; norm_num
    have cBA : (sortComparator E "price-low-high" (namedPriced "B" "10")
        (namedPriced "A" "10")).isPos = true := by
      simp [sortComparator, pA, pB, JSNum.strictNe, compareNames, nA, nB, JSNum.ofInt,
        JSNum.isPos, hBA]
    simp [handleSort, jsSort, sortInsert, cAC, cBC, cBA]

theorem handleSort_price_modes_witness :
    ConsistentCompare offlineEnv.localeCompare ∧
      (handleSort offlineEnv "price-low-high"
        (some [namedPriced "B" "10", namedPriced "A" "10", namedPriced "C" "5"])
        initialState).sortedProducts =
        [namedPriced "C" "5", namedPriced "A" "10", namedPriced "B" "10"] :=
  ⟨codePointCompare_consistent,
    (handleSort_price_modes offlineEnv codePointCompare_consistent [] initialState).2.2
      rfl rfl (by decide)⟩

/-- C5: for every product list and every sort mode, the four modes of the
view in particular, sorting the already sorted list again with the same mode
returns the same sequence. -/
theorem handleSort_idempotent (E : Env) (hE : ConsistentCompare E.localeCompare)
    (type : String) (l : List Row) (st st2 : ViewState) :
    (handleSort E type (some (handleSort E type (some l) st).sortedProducts)
      st2).sortedProducts = (handleSort E type (some l) st).sortedProducts := by
  simp only [handleSort_sortedProducts]
  exact jsSort_idempotent _ (sortComparator_total E hE type) (sortComparator_trans E hE type) l

theorem handleSort_idempotent_witness :
    ConsistentCompare offlineEnv.localeCompare ∧
      (handleSort offlineEnv "alphabetical-z-a"
        (some (handleSort offlineEnv "alphabetical-z-a"
          (some [namedPriced "A" "10", namedPriced "B" "5"]) initialState).sortedProducts)
        initialState).sortedProducts =
      (handleSort offlineEnv "alphabetical-z-a"
        (some [namedPriced "A" "10", namedPriced "B" "5"]) initialState).sortedProducts :=
  ⟨codePointCompare_consistent,
    handleSort_idempotent offlineEnv codePointCompare_consistent "alphabetical-z-a"
      [namedPriced "A" "10", namedPriced "B" "5"] initialState initialState⟩

theorem sortInsert_congr {α : Type} (cmp cmp2 : α → α → JSNum) (a : α) (l : List α)
    (h : ∀ b ∈ l, cmp a b = cmp2 a b) : sortInsert cmp a l = sortInsert cmp2 a l := by
  induction l with
  | nil => rfl
  | cons b l ih =>
    simp only [sortInsert, h b (List.mem_cons_self b l),
      ih (fun c hc => h c (List.mem_cons_of_mem b hc))]

theorem jsSort_congr {α : Type} (cmp cmp2 : α → α → JSNum) (l : List α)
    (h : l.Pairwise (fun a b => cmp a b = cmp2 a b)) : jsSort cmp l = jsSort cmp2 l := by
  induction l with
  | nil => rfl
  | cons a l ih =>
    have ha := List.pairwise_cons.mp h
    rw [jsSort, jsSort, ih ha.2]
    exact sortInsert_congr cmp cmp2 a _
      (fun b hb => ha.1 b ((List.Perm.mem_iff (jsSort_perm cmp2 l)).mp hb))


theorem consistent_const_zero : ConsistentCompare (fun _ _ => (0 : Int)) :=
  ⟨fun _ => rfl, fun _ _ => by simp, fun _ _ _ _ _ => le_refl _⟩

theorem sortComparator_price_congr (E : Env) (lc : String → String → Int) (type : String)
    (a b : Row) (hne : numericPrice E a ≠ numericPrice E b)
    (ht : type = "price-low-high" ∨ type = "price-high-low") :
    sortComparator E type a b = sortComparator { E with localeCompare := lc } type a b := by
  have hs : (numericPrice E a).strictNe (numericPrice E b) = true :=
    (jsnum_strictNe_iff (numericPrice_ne_nan E a) (numericPrice_ne_nan E b)).mpr hne
  have hp : ∀ p, numericPrice { E with localeCompare := lc } p = numericPrice E p :=
    fun _ => rfl
  rcases ht with ht | ht <;> subst ht <;> simp [sortComparator, hp, hs]

theorem strictly_sorted_unique (E : Env) (l1 l2 : List Row) (hp : l1.Perm l2)
    (h1 : l1.Pairwise (fun a b => (numericPrice E b).lt (numericPrice E a)))
    (h2 : l2.Pairwise (fun a b => (numericPrice E b).lt (numericPrice E a))) : l1 = l2 := by
  haveI : IsAntisymm Row (fun a b => (numericPrice E b).lt (numericPrice E a)) :=
    ⟨fun a b hab hba => absurd hba (jsnum_lt_asymm hab)⟩
  exact List.eq_of_perm_of_sorted hp h1 h2

theorem distinct_prices_perm (E : Env) {l m : List Row} (hp : m.Perm l)
    (hd : l.Pairwise (fun a b => numericPrice E a ≠ numericPrice E b)) :
    m.Pairwise (fun a b => numericPrice E a ≠ numericPrice E b) :=
  (List.Perm.pairwise_iff (fun {_ _} h => Ne.symm h) hp).mpr hd

theorem jsSort_priceLowHigh_strict (E : Env) (l : List Row)
    (hd : l.Pairwise (fun a b => numericPrice E a ≠ numericPrice E b)) :
    (jsSort (sortComparator E "price-low-high") l).Pairwise
      (fun a b => (numericPrice E a).lt (numericPrice E b)) := by
  have hc := consistent_const_zero
  have hcongr : jsSort (sortComparator E "price-low-high") l =
      jsSort (sortComparator { E with localeCompare := fun _ _ => 0 } "price-low-high") l :=
    jsSort_congr _ _ l (hd.imp (fun {a b} hab =>
      sortComparator_price_congr E _ _ a b hab (Or.inl rfl)))
  have hsorted := jsSort_pairwise _
    (sortComparator_total { E with localeCompare := fun _ _ => 0 } hc "price-low-high")
    (sortComparator_trans { E with localeCompare := fun _ _ => 0 } hc "price-low-high") l
  rw [← hcongr] at hsorted
  have hdist := distinct_prices_perm E (jsSort_perm (sortComparator E "price-low-high") l) hd
  refine (hsorted.and hdist).imp ?_
  intro a b hab
  rcases (notAfter_priceLowHigh _ a b).mp hab.1 with h | h
  · exact h
  · exact absurd h.1 hab.2

theorem jsSort_priceHighLow_strict (E : Env) (l : List Row)
    (hd : l.Pairwise (fun a b => numericPrice E a ≠ numericPrice E b)) :
    (jsSort (sortComparator E "price-high-low") l).Pairwise
      (fun a b => (numericPrice E b).lt (numericPrice E a)) := by
  have hc := consistent_const_zero
  have hcongr : jsSort (sortComparator E "price-high-low") l =
      jsSort (sortComparator { E with localeCompare := fun _ _ => 0 } "price-high-low") l :=
    jsSort_congr _ _ l (hd.imp (fun {a b} hab =>
      sortComparator_price_congr E _ _ a b hab (Or.inr rfl)))
  have hsorted := jsSort_pairwise _
    (sortComparator_total { E with localeCompare := fun _ _ => 0 } hc "price-high-low")
    (sortComparator_trans { E with localeCompare := fun _ _ => 0 } hc "price-high-low") l
  rw [← hcongr] at hsorted
  have hdist := distinct_prices_perm E (jsSort_perm (sortComparator E "price-high-low") l) hd
  refine (hsorted.and hdist).imp ?_
  intro a b hab
  rcases (notAfter_priceHighLow _ a b).mp hab.1 with h | h
  · exact h
  · exact absurd h.1 hab.2

theorem jsSort_priceHighLow_of_perm (E : Env) (l m : List Row) (hp : m.Perm l)
    (hd : l.Pairwise (fun a b => numericPrice E a ≠ numericPrice E b)) :
    jsSort (sortComparator E "price-high-low") m =
      (jsSort (sortComparator E "price-low-high") l).reverse := by
  apply strictly_sorted_unique E
  · exact ((jsSort_perm _ m).trans hp).trans
      ((jsSort_perm (sortComparator E "price-low-high") l).symm.trans
        (List.reverse_perm _).symm)
  · exact jsSort_priceHighLow_strict E m (distinct_prices_perm E hp hd)
  · exact List.pairwise_reverse.mpr (jsSort_priceLowHigh_strict E l hd)

/-- C6: for every product list whose numeric prices are pairwise distinct,
sorting price-low-high and then price-high-low yields exactly the reverse of
the price-low-high order, whether the second sort is given the sorted list or
the list as loaded. -/
theorem price_high_low_reverses (E : Env) (l : List Row) (st st2 : ViewState)
    (hd : l.Pairwise (fun a b => numericPrice E a ≠ numericPrice E b)) :
    (handleSort E "price-high-low" (some (handleSort E "price-low-high" (some l) st).sortedProducts)
        st2).sortedProducts = (handleSort E "price-low-high" (some l) st).sortedProducts.reverse ∧
      (handleSort E "price-high-low" (some l) st2).sortedProducts =
        (handleSort E "price-low-high" (some l) st).sortedProducts.reverse := by
  simp only [handleSort_sortedProducts]
  exact ⟨jsSort_priceHighLow_of_perm E l _ (jsSort_perm _ l) hd,
    jsSort_priceHighLow_of_perm E l l (List.Perm.refl l) hd⟩

theorem numericPrice_offline_ten (n : String) :
    numericPrice offlineEnv (namedPriced n "10") = JSNum.fin 10 :=
  numericPrice_of_decimal offlineEnv _ "10" 10 0 10 (by simp [namedPriced, Row.ofFields, Row.get, List.lookup])
    (by decide) (by norm_num [decimalValue]) (by norm_num) rfl

theorem numericPrice_offline_five (n : String) :
    numericPrice offlineEnv (namedPriced n "5") = JSNum.fin 5 :=
  numericPrice_of_decimal offlineEnv _ "5" 5 0 5 (by simp [namedPriced, Row.ofFields, Row.get, List.lookup])
    (by decide) (by norm_num [decimalValue]) (by norm_num) rfl

theorem distinct_prices_sample :
    [namedPriced "A" "10", namedPriced "C" "5"].Pairwise
      (fun a b => numericPrice offlineEnv a ≠ numericPrice offlineEnv b) := by
  simp [numericPrice_offline_ten, numericPrice_offline_five]

theorem price_high_low_reverses_witness :
    [namedPriced "A" "10", namedPriced "C" "5"].Pairwise
        (fun a b => numericPrice offlineEnv a ≠ numericPrice offlineEnv b) ∧
      (handleSort offlineEnv "price-high-low"
          (some (handleSort offlineEnv "price-low-high"
            (some [namedPriced "A" "10", namedPriced "C" "5"]) initialState).sortedProducts)
          initialState).sortedProducts =
        (handleSort offlineEnv "price-low-high"
          (some [namedPriced "A" "10", namedPriced "C" "5"]) initialState).sortedProducts.reverse :=
  ⟨distinct_prices_sample,
    (price_high_low_reverses offlineEnv [namedPriced "A" "10", namedPriced "C" "5"]
      initialState initialState distinct_prices_sample).1⟩

/-! ## The product catalogue -/

theorem getShopProducts_cases (E : Env) (sheetId : Value) (mock : ProductTable) :
    (getShopProducts E sheetId mock).1 = Except.ok [] ∨
      ∃ l, (getShopProducts E sheetId mock).1 = Except.ok (jsSort (comparePriceThenName E) l) := by
  unfold getShopProducts
  split
  · exact Or.inl rfl
  · split
    · split
      · exact Or.inr ⟨_, rfl⟩
      · exact Or.inr ⟨_, rfl⟩
    · split
      · exact Or.inr ⟨_, rfl⟩
      · exact Or.inl rfl

theorem mockSheet1_sorted (E : Env) (h25 : E.toDouble 25 = JSNum.fin 25)
    (h120 : E.toDouble 120 = JSNum.fin 120) (h300 : E.toDouble 300 = JSNum.fin 300) :
    ∃ ps, (getShopProducts E (Value.str "mock-sheet-1") MOCK_PRODUCTS).1 = Except.ok ps ∧
      ps.map sortName = ["Wireless Mouse", "Mechanical Keyboard", "Monitor 27\""] ∧
      ps.map (numericPrice E) = [JSNum.fin 25, JSNum.fin 120, JSNum.fin 300] := by
  have p1 : ∀ i n c u s, numericPrice E (mockProduct i n "25.00" c u s) = JSNum.fin 25 :=
    fun i n c u s => numericPrice_of_decimal E _ "25.00" 2500 (-2) 25
      (by simp [mockProduct, Row.ofFields, Row.get, List.lookup]) (by decide) (by norm_num [decimalValue])
      (by norm_num) h25
  have p2 : ∀ i n c u s, numericPrice E (mockProduct i n "120.00" c u s) = JSNum.fin 120 :=
    fun i n c u s => numericPrice_of_decimal E _ "120.00" 12000 (-2) 120
      (by simp [mockProduct, Row.ofFields, Row.get, List.lookup]) (by decide) (by norm_num [decimalValue])
      (by norm_num) h120
  have p3 : ∀ i n c u s, numericPrice E (mockProduct i n "300.00" c u s) = JSNum.fin 300 :=
    fun i n c u s => numericPrice_of_decimal E _ "300.00" 30000 (-2) 300
      (by simp [mockProduct, Row.ofFields, Row.get, List.lookup]) (by decide) (by norm_num [decimalValue])
      (by norm_num) h300
  have hfind : MOCK_PRODUCTS.find "mock-sheet-1" = some mockSheet1 := by decide
  have hstart : jsStartsWith "mock-sheet-1" "mock-sheet-" = true := by decide
  have hsorted : jsSort (comparePriceThenName E) mockSheet1 = mockSheet1 := by
    apply jsSort_eq_self
    rw [comparePriceThenName_eq]
    simp only [mockSheet1, List.pairwise_cons, List.mem_cons, List.mem_singleton,
      notAfter_priceLowHigh, PriceAscending, forall_eq_or_imp, forall_eq, p1, p2, p3, JSNum.lt]
    simp
    norm_num
  refine ⟨mockSheet1, ?_, ?_, ?_⟩
  · simp only [getShopProducts, Value.truthy, Value.toStr, hstart, hfind, hsorted]
    simp
  · decide
  · simp [mockSheet1, p1, p2, p3]

/-- C10: for every source reference and every fetched table, the list that
getShopProducts returns is already in the price-low-high order of the view,
so the default sort applied on load returns it unchanged; and
getShopProducts of mock-sheet-1 is the three item list Wireless Mouse (25),
Mechanical Keyboard (120) and the 27 inch Monitor (300). -/
theorem getShopProducts_presorted (E : Env) (hE : ConsistentCompare E.localeCompare)
    (sheetId : Value) (mock : ProductTable) (st : ViewState) :
    (∃ ps, (getShopProducts E sheetId mock).1 = Except.ok ps ∧
      (handleSort E "price-low-high" (some ps) st).sortedProducts = ps) ∧
    (E.toDouble 25 = JSNum.fin 25 → E.toDouble 120 = JSNum.fin 120 →
      E.toDouble 300 = JSNum.fin 300 →
      ∃ ps, (getShopProducts E (Value.str "mock-sheet-1") MOCK_PRODUCTS).1 = Except.ok ps ∧
        ps.map sortName = ["Wireless Mouse", "Mechanical Keyboard", "Monitor 27\""] ∧
        ps.map (numericPrice E) = [JSNum.fin 25, JSNum.fin 120, JSNum.fin 300]) := by
  refine ⟨?_, mockSheet1_sorted E⟩
  rcases getShopProducts_cases E sheetId mock with h | ⟨l, h⟩
  · exact ⟨[], h, rfl⟩
  · refine ⟨_, h, ?_⟩
    rw [handleSort_sortedProducts, ← comparePriceThenName_eq]
    exact jsSort_idempotent _
      (comparePriceThenName_eq E ▸ sortComparator_total E hE "price-low-high")
      (comparePriceThenName_eq E ▸ sortComparator_trans E hE "price-low-high") l

theorem getShopProducts_presorted_witness :
    ConsistentCompare offlineEnv.localeCompare ∧
      ∃ ps, (getShopProducts offlineEnv (Value.str "mock-sheet-1") MOCK_PRODUCTS).1 =
          Except.ok ps ∧
        (handleSort offlineEnv "price-low-high" (some ps) initialState).sortedProducts = ps :=
  ⟨codePointCompare_consistent,
    (getShopProducts_presorted offlineEnv codePointCompare_consistent
      (Value.str "mock-sheet-1") MOCK_PRODUCTS initialState).1⟩

theorem truthy_iff_nonEmptyText (v : Value) : v.truthy = true ↔ v.NonEmptyText := by
  cases v with
  | undefined => simp [Value.truthy, Value.NonEmptyText]
  | null => simp [Value.truthy, Value.NonEmptyText]
  | str s => simp [Value.truthy, Value.NonEmptyText]

theorem productValid_iff (p : Row) :
    productValid p = true ↔ (p.get "name").NonEmptyText ∧ (p.get "price").NonEmptyText := by
  simp [productValid, truthy_iff_nonEmptyText]

theorem mock_products_valid (key : String) (arr : List Row)
    (h : MOCK_PRODUCTS.find key = some arr) :
    ∀ p ∈ arr, (p.get "name").NonEmptyText ∧ (p.get "price").NonEmptyText := by
  have h1 : ∀ p ∈ mockSheet1, productValid p = true := by decide
  have h2 : ∀ p ∈ mockSheet2, productValid p = true := by decide
  intro p hp
  rw [← productValid_iff]
  simp only [ProductTable.find, MOCK_PRODUCTS, List.lookup] at h
  split at h
  · cases h; exact h1 p hp
  · split at h
    · cases h; exact h2 p hp
    · cases h

theorem entries_valid_of_valid_table (E : Env) (sheetId : Value) (mock : ProductTable)
    (hmock : ∀ key arr, mock.find key = some arr →
      ∀ p ∈ arr, (p.get "name").NonEmptyText ∧ (p.get "price").NonEmptyText) :
    ∃ ps, (getShopProducts E sheetId mock).1 = Except.ok ps ∧
      ∀ p ∈ ps, (p.get "name").NonEmptyText ∧ (p.get "price").NonEmptyText := by
  unfold getShopProducts
  split
  · exact ⟨[], rfl, by simp⟩
  · split
    · split
      · rename_i arr harr
        refine ⟨_, rfl, fun p hp => ?_⟩
        exact hmock _ arr harr p ((List.Perm.mem_iff (jsSort_perm _ arr)).mp hp)
      · exact ⟨_, rfl, by simp [jsSort]⟩
    · split
      · rename_i products _
        refine ⟨_, rfl, fun p hp => ?_⟩
        have hp2 := (List.Perm.mem_iff (jsSort_perm _ _)).mp hp
        exact (productValid_iff p).mp (List.mem_filter.mp hp2).2
      · exact ⟨[], rfl, by simp⟩

theorem store_find (mock : ProductTable) (key key2 : String) (arr x : List Row)
    (h : (mock.store key arr).find key2 = some x) : x = arr ∨ mock.find key2 = some x := by
  induction mock with
  | nil => simp [ProductTable.store, ProductTable.find] at h
  | cons e rest ih =>
    obtain ⟨k, v⟩ := e
    simp only [ProductTable.store, ProductTable.find, List.map_cons, List.lookup_cons] at h ih ⊢
    cases hb : key2 == k with
    | true =>
      rw [hb] at h
      by_cases he : k = key
      · simp only [he, if_true, Option.some.injEq] at h
        exact Or.inl h.symm
      · simp only [he, if_false] at h
        exact Or.inr h
    | false =>
      rw [hb] at h
      exact ih h

theorem getShopProducts_table_valid (E : Env) (sheetId : Value) (mock : ProductTable)
    (hmock : ∀ key arr, mock.find key = some arr →
      ∀ p ∈ arr, (p.get "name").NonEmptyText ∧ (p.get "price").NonEmptyText) :
    ∀ key arr, (getShopProducts E sheetId mock).2.find key = some arr →
      ∀ p ∈ arr, (p.get "name").NonEmptyText ∧ (p.get "price").NonEmptyText := by
  unfold getShopProducts
  split
  · exact hmock
  · split
    · split
      · rename_i arr0 harr0
        intro key arr h p hp
        rcases store_find mock _ key _ arr h with h1 | h1
        · rw [h1] at hp
          exact hmock _ arr0 harr0 p ((List.Perm.mem_iff (jsSort_perm _ arr0)).mp hp)
        · exact hmock key arr h1 p hp
      · exact hmock
    · split
      · exact hmock
      · exact hmock

theorem foldl_table_valid (history : List (Env × Value)) (mock : ProductTable)
    (hmock : ∀ key arr, mock.find key = some arr →
      ∀ p ∈ arr, (p.get "name").NonEmptyText ∧ (p.get "price").NonEmptyText) :
    ∀ key arr,
      (history.foldl (fun mock call => (getShopProducts call.1 call.2 mock).2) mock).find key =
        some arr →
      ∀ p ∈ arr, (p.get "name").NonEmptyText ∧ (p.get "price").NonEmptyText := by
  induction history generalizing mock with
  | nil => exact hmock
  | cons call rest ih =>
    exact ih _ (getShopProducts_table_valid call.1 call.2 mock hmock)

/-- C1 as the code has it: for every source reference, every table of rows
the fetch can return and whatever calls of getShopProducts came before,
getShopProducts resolves to a list in which every entry has a non-empty name
and a non-empty price text, so a row whose name or price is missing or empty
is never in the result; that the price parses as a number is not required. -/
theorem getShopProducts_entries_valid (E : Env) (sheetId : Value)
    (history : List (Env × Value)) :
    ∃ ps, (getShopProducts E sheetId (mockAfter history)).1 = Except.ok ps ∧
      (∀ p ∈ ps, (p.get "name").NonEmptyText ∧ (p.get "price").NonEmptyText) ∧
      (∀ p : Row, ¬ ((p.get "name").NonEmptyText ∧ (p.get "price").NonEmptyText) → p ∉ ps) := by
  obtain ⟨ps, hps, hvalid⟩ := entries_valid_of_valid_table E sheetId
    (mockAfter history) (foldl_table_valid history MOCK_PRODUCTS mock_products_valid)
  exact ⟨ps, hps, hvalid, fun p hp hmem => hp (hvalid p hmem)⟩

/-- C1 fails as stated: when the fetched table is the one record with name
Widget and price abc, getShopProducts of the bare identifier sheet-1 returns
that record, although parseFloat of its price is NaN. -/
theorem getShopProducts_keeps_unparseable_price :
    (getShopProducts widgetEnv (Value.str "sheet-1") MOCK_PRODUCTS).1 = Except.ok [widgetRow] ∧
      widgetRow.get "price" = Value.str "abc" ∧
      parseFloat widgetEnv (widgetRow.get "price") = JSNum.nan := by
  refine ⟨?_, rfl, ?_⟩
  · rfl
  · decide

/-- C3: handleSort leaves the held product list as it was, but
getShopProducts sorts the built-in array in place: called with mock-sheet-2
on the table as the module defines it (numbers exact), it leaves Vase before
Modern Lamp under that key, the reverse of the order before the call. -/
theorem getShopProducts_reorders_mock_table (E : Env) (type : String)
    (productsToSort : Option (List Row)) (st : ViewState) :
    (handleSort E type productsToSort st).products = st.products ∧
      MOCK_PRODUCTS.find "mock-sheet-2" = some mockSheet2 ∧
      (getShopProducts { E with toDouble := JSNum.fin } (Value.str "mock-sheet-2")
        MOCK_PRODUCTS).2.find "mock-sheet-2" = some mockSheet2.reverse ∧
      mockSheet2.reverse ≠ mockSheet2 := by
  have p1 : ∀ i n c u s,
      numericPrice { E with toDouble := JSNum.fin } (mockProduct i n "45.00" c u s) =
        JSNum.fin 45 :=
    fun i n c u s => numericPrice_of_decimal _ _ "45.00" 4500 (-2) 45
      (by simp [mockProduct, Row.ofFields, Row.get, List.lookup]) (by decide) (by norm_num [decimalValue])
      (by norm_num) rfl
  have p2 : ∀ i n c u s,
      numericPrice { E with toDouble := JSNum.fin } (mockProduct i n "20.00" c u s) =
        JSNum.fin 20 :=
    fun i n c u s => numericPrice_of_decimal _ _ "20.00" 2000 (-2) 20
      (by simp [mockProduct, Row.ofFields, Row.get, List.lookup]) (by decide) (by norm_num [decimalValue])
      (by norm_num) rfl
  have hfind : MOCK_PRODUCTS.find "mock-sheet-2" = some mockSheet2 := by decide
  have hstart : jsStartsWith "mock-sheet-2" "mock-sheet-" = true := by decide
  have hsorted : jsSort (comparePriceThenName { E with toDouble := JSNum.fin }) mockSheet2 =
      mockSheet2.reverse := by
    have hc : (comparePriceThenName { E with toDouble := JSNum.fin }
        (mockProduct "201" "Modern Lamp" "45.00" "Lighting"
          "https://placehold.co/300x300?text=Lamp" "15")
        (mockProduct "202" "Vase" "20.00" "Decor"
          "https://placehold.co/300x300?text=Vase" "30")).isPos = true := by
      simp [comparePriceThenName, p1, p2, JSNum.strictNe, JSNum.sub, JSNum.isPos]
      norm_num
    simp [mockSheet2, jsSort, sortInsert, hc]
  refine ⟨rfl, hfind, ?_, by decide⟩
  have hne : ("mock-sheet-2" != "") = true := by decide
  simp only [getShopProducts, Value.truthy, Value.toStr, hstart, hfind, hsorted, hne,
    Bool.not_true, Bool.false_eq_true, if_false, if_true]
  decide

/-! ## The tabular fetcher and the shop directory -/

theorem trimChars_eq_nil_iff (cs : List Char) :
    trimChars cs = [] ↔ ∀ c ∈ cs, isWhiteSpace c = true := by
  unfold trimChars trimStartChars
  rw [List.reverse_eq_nil_iff, List.dropWhile_eq_nil_iff]
  constructor
  · intro h
    by_contra hcs
    have hne : cs.dropWhile isWhiteSpace ≠ [] := by
      rw [Ne, List.dropWhile_eq_nil_iff]; exact hcs
    obtain ⟨x, xs, hx⟩ := List.exists_cons_of_ne_nil hne
    have hhead : isWhiteSpace x = true :=
      h x (List.mem_reverse.mpr (hx ▸ List.mem_cons_self x xs))
    have := List.head_dropWhile_not isWhiteSpace cs hne
    simp [hx] at this
    rw [this] at hhead
    cases hhead
  · intro h x hx
    have hnil : cs.dropWhile isWhiteSpace = [] := List.dropWhile_eq_nil_iff.mpr h
    rw [hnil] at hx
    cases hx

theorem jsTrim_ne_empty_iff (s : String) :
    (jsTrim s != "") = !(s.toList.all isWhiteSpace) := by
  have h1 : (jsTrim s = "") ↔ trimChars s.toList = [] := by
    unfold jsTrim
    constructor
    · intro h; exact congrArg String.data h
    · intro h; rw [h]
  by_cases hcs : ∀ c ∈ s.toList, isWhiteSpace c = true
  · have : jsTrim s = "" := h1.mpr ((trimChars_eq_nil_iff _).mpr hcs)
    have hall : s.toList.all isWhiteSpace = true := List.all_eq_true.mpr hcs
    rw [this, hall]
    rfl
  · have : jsTrim s ≠ "" := fun h => hcs ((trimChars_eq_nil_iff _).mp (h1.mp h))
    have hall : s.toList.all isWhiteSpace = false := by
      rw [← Bool.not_eq_true, List.all_eq_true]; exact hcs
    rw [hall]
    exact bne_iff_ne.mpr this

theorem cellNonEmpty_eq (v : Value) : fieldNonEmpty (FieldValue.cell v) = !fieldBlank v := by
  cases v with
  | undefined => rfl
  | null => rfl
  | str s =>
    have := jsTrim_ne_empty_iff s
    simp only [fieldNonEmpty, fieldBlank, FieldValue.toStr, Value.toStr, this]
    rfl

theorem rowNonEmpty_eq_of_no_extra (row : Row) (h : row.parsedExtra = none) :
    rowNonEmpty row = !rowBlank row := by
  have hfields : ∀ fields : List (String × Value),
      (fields.map (fun field => FieldValue.cell field.2)).any fieldNonEmpty =
        !fields.all (fun field => fieldBlank field.2) := by
    intro fields
    induction fields with
    | nil => rfl
    | cons f fs ih =>
      simp only [List.map_cons, List.any_cons, List.all_cons, ih, cellNonEmpty_eq, Bool.not_and]
  simp only [rowNonEmpty, rowBlank, Row.values, h, List.append_nil, hfields, Bool.and_true]

theorem fetchCSV_sampleTable :
    fetchCSV (tableEnv sampleTable) "https://example.org/sheet.csv" = Except.ok [widgetRow] :=
  congrArg Except.ok (by decide)

/-- C7: the filter of fetchCSV keeps a record of empty cells when the line has
two or more cells beyond the header.  The record of the line of three commas
under the header name,price is blank, every named cell and every surplus cell
of it being empty, yet fetchCSV returns it; on tables whose records have no
surplus cells, fetchCSV returns exactly the records that are not blank, in
their order. -/
theorem fetchCSV_keeps_blank_surplus_row :
    rowBlank surplusRow = true ∧
      fetchCSV (tableEnv [surplusRow]) "https://example.org/sheet.csv" =
        Except.ok [surplusRow] ∧
      (∀ (E : Env) (url : String) (data : List Row), E.download url = Except.ok data →
        (∀ row ∈ data, row.parsedExtra = none) →
        fetchCSV E url = Except.ok (data.filter (fun row => !rowBlank row))) := by
  refine ⟨by decide, congrArg Except.ok (by decide), ?_⟩
  intro E url data h hdata
  simp only [fetchCSV, h]
  congr 1
  apply List.filter_congr
  intro row hrow
  exact rowNonEmpty_eq_of_no_extra row (hdata row hrow)

theorem shopValid_iff (s : Row) :
    shopValid s = true ↔ (s.get "name").NonEmptyText ∧ (s.get "slug").NonEmptyText := by
  simp [shopValid, truthy_iff_nonEmptyText]

/-- C8: for every configuration and every outcome of the fetch, getShops
resolves to a list, every entry of which has a non-empty name and a non-empty
slug; when the source URL is configured and the download fails, the list is
empty. -/
theorem getShops_resolves_valid (E : Env) :
    (∃ shops, getShops E = Except.ok shops ∧
      ∀ s ∈ shops, (s.get "name").NonEmptyText ∧ (s.get "slug").NonEmptyText) ∧
    (E.masterSheetUrl.truthy = true →
      (∃ e, E.download E.masterSheetUrl.toStr = Except.error e) →
      getShops E = Except.ok []) := by
  constructor
  · unfold getShops
    split
    · split
      · refine ⟨_, rfl, fun s hs => ?_⟩
        exact (shopValid_iff s).mp (List.mem_filter.mp hs).2
      · exact ⟨[], rfl, by simp⟩
    · refine ⟨MOCK_SHOPS, rfl, fun s hs => ?_⟩
      have hall : ∀ s ∈ MOCK_SHOPS, shopValid s = true := by decide
      exact (shopValid_iff s).mp (hall s hs)
  · rintro ht ⟨e, he⟩
    simp [getShops, ht, fetchCSV, he]

/-! ## The shop detail view -/

theorem getShops_ok (E : Env) : ∃ shops, getShops E = Except.ok shops := by
  unfold getShops
  split
  · split
    · exact ⟨_, rfl⟩
    · exact ⟨[], rfl⟩
  · exact ⟨MOCK_SHOPS, rfl⟩

theorem offline_slug_unknown (shops : List Row) (h : getShops offlineEnv = Except.ok shops) :
    ∀ s ∈ shops, s.get "slug" ≠ Value.str "no-such-shop" := by
  have hm : getShops offlineEnv = Except.ok MOCK_SHOPS := rfl
  rw [hm] at h
  cases h
  decide

/-- C9: for every view state and every slug that matches no shop of the list
getShops returns, the load ends with the view showing the error Shop not
found, never the ready screen, and getShopProducts is not called: the only
call made is getShops, and the mock table is untouched. -/
theorem loadShopData_shop_not_found (E : Env) (slug : Value) (st : ViewState) (w : World)
    (h : ∀ shops, getShops E = Except.ok shops → ∀ s ∈ shops, s.get "slug" ≠ slug) :
    render (loadShopData E slug st w).1 = Screen.error "Shop not found" ∧
      (∀ shop ps, render (loadShopData E slug st w).1 ≠ Screen.ready shop ps) ∧
      (loadShopData E slug st w).2.calls = w.calls ++ [ServiceCall.getShops] ∧
      (loadShopData E slug st w).2.mock = w.mock := by
  obtain ⟨shops, hs⟩ := getShops_ok E
  have hfind : shops.find? (fun s => s.get "slug" == slug) = none := by
    rw [List.find?_eq_none]
    intro s hmem
    simpa using h shops hs s hmem
  have hload : loadShopData E slug st w =
      ({ st with loading := false, error := some "Shop not found" },
        { w with calls := w.calls ++ [ServiceCall.getShops] }) := by
    simp only [loadShopData, hs, hfind]
  have hrender : render (loadShopData E slug st w).1 = Screen.error "Shop not found" := by
    rw [hload]
    cases hshop : st.shop <;> simp [render, hshop, errorTruthy]
  refine ⟨hrender, ?_, ?_, ?_⟩
  · intro shop ps hready
    rw [hrender] at hready
    cases hready
  · rw [hload]
  · rw [hload]

theorem loadShopData_shop_not_found_witness :
    (∀ shops, getShops offlineEnv = Except.ok shops →
      ∀ s ∈ shops, s.get "slug" ≠ Value.str "no-such-shop") ∧
    render (loadShopData offlineEnv (Value.str "no-such-shop") initialState initialWorld).1 =
      Screen.error "Shop not found" :=
  ⟨offline_slug_unknown,
    (loadShopData_shop_not_found offlineEnv (Value.str "no-such-shop") initialState initialWorld
      offline_slug_unknown).1⟩

/-- C4: the error recorded by an earlier load is never cleared.  With the
built-in directory, a fresh view that enters with the slug tech-store ends
ready with the Tech Store shop; the same view after a load of an unknown slug
ended in the error Shop not found, entering with tech-store, sets the shop and
leaves loading, yet still shows the error Shop not found. -/
theorem loadShopData_error_sticks (E : Env) :
    (∃ shop ps, MOCK_SHOPS.head? = some shop ∧
      render (loadShopData { E with masterSheetUrl := Value.undefined } (Value.str "tech-store")
        initialState initialWorld).1 = Screen.ready shop ps) ∧
    render (loadShopData { E with masterSheetUrl := Value.undefined }
      (Value.str "no-such-shop") initialState initialWorld).1 = Screen.error "Shop not found" ∧
    render (loadShopData { E with masterSheetUrl := Value.undefined } (Value.str "tech-store")
      (loadShopData { E with masterSheetUrl := Value.undefined } (Value.str "no-such-shop")
        initialState initialWorld).1
      (loadShopData { E with masterSheetUrl := Value.undefined } (Value.str "no-such-shop")
        initialState initialWorld).2).1 = Screen.error "Shop not found" ∧
    (loadShopData { E with masterSheetUrl := Value.undefined } (Value.str "tech-store")
      (loadShopData { E with masterSheetUrl := Value.undefined } (Value.str "no-such-shop")
        initialState initialWorld).1
      (loadShopData { E with masterSheetUrl := Value.undefined } (Value.str "no-such-shop")
        initialState initialWorld).2).1.shop = MOCK_SHOPS.head? := by
  refine ⟨⟨_, _, rfl, rfl⟩, rfl, rfl, rfl⟩

end Shops
